import Mathlib

/-!
Verification of the test-harness library (`src/lib.rs`) of libtest-mimic.

The data model (`Test`, `Outcome`, `Conclusion`), the filtering predicates
(`Arguments.is_ignored`, `Arguments.is_filtered_out`) and the central `run`
function are embedded shallowly.  Strings are `List Char`; the `FnOnce`
runner of a unit is a pure function `Unit → Outcome` (the claims about the
run only concern deterministic closures).  The printer (`printer.rs`, not
part of the sources) is modelled abstractly as a trace of print events in
the order in which `lib.rs` invokes the printer methods.  The concurrent
branch of `run` delivers `(outcome, info)` pairs through a channel in a
nondeterministic arrival order; we model it by a function of an explicit
arrival list, quantifying over permutations of the dispatched pairs.
-/

namespace LibtestMimic

/-- Output of a benchmark (`struct Measurement`, lib.rs). -/
structure Measurement where
  avg : Nat
  variance : Nat
deriving DecidableEq, Repr

/-- Failure indicator optionally carrying a message (`struct Failed`, lib.rs). -/
structure Failed where
  msg : Option (List Char)
deriving DecidableEq, Repr

/-- The outcome of performing a test/benchmark (`enum Outcome`, lib.rs). -/
inductive Outcome where
  | Passed : Outcome
  | Failed : LibtestMimic.Failed → Outcome
  | Ignored : Outcome
  | Measured : Measurement → Outcome
deriving DecidableEq, Repr

/-- Metadata of a unit (`struct TestInfo`, lib.rs). -/
structure TestInfo where
  name : List Char
  kind : List Char
  is_ignored : Bool
  is_bench : Bool
deriving DecidableEq, Repr

/-- A single test or benchmark (`struct Test`, lib.rs): metadata plus the
one-shot runner closure, modelled as a pure function. -/
structure Test where
  runner : Unit → Outcome
  info : TestInfo

/-- `Test::test` (lib.rs): builds a non-benchmark unit whose runner maps the
user closure's `Ok`/`Err` result to `Passed`/`Failed`. -/
def Test.test (name : List Char) (runner : Unit → Except Failed Unit) : Test where
  runner := fun _ =>
    match runner () with
    | .ok _ => Outcome.Passed
    | .error failed => Outcome.Failed failed
  info := { name := name, kind := [], is_ignored := false, is_bench := false }

/-- `Test::bench` (lib.rs): builds a benchmark unit whose runner maps the
user closure's `Ok`/`Err` result to `Measured`/`Failed`. -/
def Test.bench (name : List Char) (runner : Unit → Except Failed Measurement) : Test where
  runner := fun _ =>
    match runner () with
    | .ok m => Outcome.Measured m
    | .error failed => Outcome.Failed failed
  info := { name := name, kind := [], is_ignored := false, is_bench := true }

/-- `Test::with_ignored_flag` (lib.rs). -/
def Test.with_ignored_flag (t : Test) (b : Bool) : Test :=
  { t with info := { t.info with is_ignored := b } }

/-- The five aggregate counters returned by `run`
(`struct Conclusion`, lib.rs).  The Rust fields are `u64`; every counter is
only ever incremented once per list element, so values stay far below
`2^64` and `Nat` is a faithful model. -/
@[ext]
structure Conclusion where
  num_filtered_out : Nat
  num_passed : Nat
  num_failed : Nat
  num_ignored : Nat
  num_benches : Nat
deriving DecidableEq, Repr

/-- `Conclusion::empty` (lib.rs). -/
def Conclusion.empty : Conclusion :=
  { num_filtered_out := 0, num_passed := 0, num_failed := 0,
    num_ignored := 0, num_benches := 0 }

/-- `Conclusion::has_failed` (lib.rs). -/
def Conclusion.has_failed (c : Conclusion) : Bool :=
  c.num_failed > 0

/-- Modelled from the spec: the configuration structure `Arguments` is
declared in `args.rs`, which is not among the sources; its fields and their
meanings are reconstructed from their uses in `lib.rs` and from §3 of the
spec (filter substring, exact-match flag, skip list, run-ignored flag,
tests-only/benchmarks-only flags, worker count, list-only flag). -/
structure Arguments where
  filter_string : Option (List Char)
  skip : List (List Char)
  exact : Bool
  ignored : Bool
  test : Bool
  bench : Bool
  list : Bool
  num_threads : Option Nat
deriving DecidableEq, Repr

/-- Substring containment, the model of Rust's `str::contains` used by
`is_filtered_out`: `pat` occurs contiguously inside `hay`. -/
def strContains (hay pat : List Char) : Bool :=
  match hay with
  | [] => pat.isEmpty
  | _ :: t => pat.isPrefixOf hay || strContains t pat

/-- `Arguments::is_ignored` (lib.rs lines 268-272). -/
def Arguments.is_ignored (args : Arguments) (t : Test) : Bool :=
  (t.info.is_ignored && !args.ignored)
    || (t.info.is_bench && args.test)
    || (!t.info.is_bench && args.bench)

/-- `Arguments::is_filtered_out` (lib.rs lines 274-296): first the filter-in
pattern (if any), then the skip patterns, each in exact or substring mode. -/
def Arguments.is_filtered_out (args : Arguments) (t : Test) : Bool :=
  let testName := t.info.name
  let filterMismatch :=
    match args.filter_string with
    | some filter =>
        if args.exact then testName ≠ filter else !strContains testName filter
    | none => false
  filterMismatch
    || args.skip.any (fun skipFilter =>
        if args.exact then testName = skipFilter else strContains testName skipFilter)

/-- One entry of the output trace: a call `lib.rs` makes into the printer,
with the data it passes. -/
inductive PrintEvent where
  | listing : List TestInfo → Bool → PrintEvent
  | title : Nat → PrintEvent
  | testLine : TestInfo → PrintEvent
  | singleOutcome : Outcome → PrintEvent
  | failures : List (TestInfo × Option (List Char)) → PrintEvent
  | summary : Conclusion → PrintEvent
deriving DecidableEq, Repr

/-- The state threaded through `run`: the aggregate counters, the
`failed_tests` list, and the trace of printer calls so far. -/
@[ext]
structure RunState where
  conclusion : Conclusion
  failed_tests : List (TestInfo × Option (List Char))
  events : List PrintEvent
deriving DecidableEq, Repr

/-- The `handle_outcome` closure of `run` (lib.rs lines 349-366): print the
outcome, bump `num_benches` for every benchmark, then bump the counter of
the outcome's variant (`Measured` bumps nothing further) and record
failures. -/
def handle_outcome (outcome : Outcome) (info : TestInfo) (s : RunState) : RunState :=
  let s := { s with events := s.events ++ [PrintEvent.singleOutcome outcome] }
  let s :=
    if info.is_bench then
      { s with conclusion := { s.conclusion with num_benches := s.conclusion.num_benches + 1 } }
    else s
  match outcome with
  | Outcome.Passed =>
      { s with conclusion := { s.conclusion with num_passed := s.conclusion.num_passed + 1 } }
  | Outcome.Failed failed =>
      { s with
        failed_tests := s.failed_tests ++ [(info, failed.msg)],
        conclusion := { s.conclusion with num_failed := s.conclusion.num_failed + 1 } }
  | Outcome.Ignored =>
      { s with conclusion := { s.conclusion with num_ignored := s.conclusion.num_ignored + 1 } }
  | Outcome.Measured _ => s

/-- The outcome `run` records for a unit: `Ignored` without invoking the
runner when `is_ignored` holds, otherwise the runner's result
(lib.rs lines 375-379 and 389-398). -/
def outcomeOf (args : Arguments) (t : Test) : Outcome :=
  if args.is_ignored t then Outcome.Ignored else t.runner ()

/-- The sequential branch of `run` (lib.rs lines 371-381): for each unit in
order, print its name, compute its outcome, and handle it before starting
the next unit. -/
def runSeq (args : Arguments) : List Test → RunState → RunState
  | [], s => s
  | t :: rest, s =>
      let s := { s with events := s.events ++ [PrintEvent.testLine t.info] }
      let outcome := outcomeOf args t
      runSeq args rest (handle_outcome outcome t.info s)

/-- The consumer loop of the concurrent branch (lib.rs lines 403-409): for
each `(outcome, info)` pair in arrival order, print the unit's name and
handle the outcome. -/
def processPairs : List (Outcome × TestInfo) → RunState → RunState
  | [], s => s
  | (outcome, info) :: rest, s =>
      processPairs rest
        (handle_outcome outcome info { s with events := s.events ++ [PrintEvent.testLine info] })

/-- The `(outcome, info)` pairs the concurrent branch dispatches into the
channel, one per unit (lib.rs lines 388-401); their multiset is fixed, the
arrival order is not. -/
def outcomePairs (args : Arguments) (tests : List Test) : List (Outcome × TestInfo) :=
  tests.map (fun t => (outcomeOf args t, t.info))

/-- The units of `tests` surviving the filtering stage of `run`
(lib.rs lines 329-334): `retain` is applied only when a filter string or at
least one skip pattern is configured. -/
def keptTests (args : Arguments) (tests : List Test) : List Test :=
  if args.filter_string.isSome || !args.skip.isEmpty then
    tests.filter (fun t => !args.is_filtered_out t)
  else tests

/-- `run` (lib.rs lines 325-420).  `arrival` is the order in which the
consumer loop of the concurrent branch receives the dispatched pairs; it is
unused in list mode and in sequential mode, and the theorems about the
concurrent branch quantify over permutations of `outcomePairs`. -/
def run (args : Arguments) (tests : List Test)
    (arrival : List (Outcome × TestInfo)) : RunState :=
  let kept := keptTests args tests
  let conclusion :=
    if args.filter_string.isSome || !args.skip.isEmpty then
      { Conclusion.empty with num_filtered_out := tests.length - kept.length }
    else Conclusion.empty
  if args.list then
    { conclusion := Conclusion.empty,
      failed_tests := [],
      events := [PrintEvent.listing (kept.map Test.info) args.ignored] }
  else
    let s0 : RunState :=
      { conclusion := conclusion, failed_tests := [], events := [PrintEvent.title kept.length] }
    let s1 :=
      if args.num_threads = some 1 then runSeq args kept s0
      else processPairs arrival s0
    let s2 :=
      if !s1.failed_tests.isEmpty then
        { s1 with events := s1.events ++ [PrintEvent.failures s1.failed_tests] }
      else s1
    { s2 with events := s2.events ++ [PrintEvent.summary s2.conclusion] }

/-- Recognizer for the `Passed` outcome variant. -/
def isPassedO : Outcome → Bool
  | Outcome.Passed => true
  | _ => false

/-- Recognizer for the `Failed` outcome variant. -/
def isFailedO : Outcome → Bool
  | Outcome.Failed _ => true
  | _ => false

/-- Recognizer for the `Ignored` outcome variant. -/
def isIgnoredO : Outcome → Bool
  | Outcome.Ignored => true
  | _ => false

/-- Recognizer for the `Measured` outcome variant. -/
def isMeasuredO : Outcome → Bool
  | Outcome.Measured _ => true
  | _ => false

/-- The printer-call trace the consumer loop produces for a list of
delivered pairs: for each unit, its name line immediately followed by its
outcome, in delivery order. -/
def pairEvents : List (Outcome × TestInfo) → List PrintEvent
  | [] => []
  | (outcome, info) :: rest =>
      PrintEvent.testLine info :: PrintEvent.singleOutcome outcome :: pairEvents rest

/-- The `failed_tests` entries produced by handling a list of pairs in
order. -/
def failedOf : List (Outcome × TestInfo) → List (TestInfo × Option (List Char))
  | [] => []
  | (Outcome.Failed f, info) :: rest => (info, f.msg) :: failedOf rest
  | _ :: rest => failedOf rest

theorem processPairs_events (l : List (Outcome × TestInfo)) (s : RunState) :
    (processPairs l s).events = s.events ++ pairEvents l := by
  induction l generalizing s with
  | nil => simp [processPairs, pairEvents]
  | cons p rest ih =>
      obtain ⟨o, i⟩ := p
      rw [processPairs, ih]
      cases o <;> cases hb : i.is_bench <;> simp [handle_outcome, pairEvents, hb]

theorem processPairs_failed_tests (l : List (Outcome × TestInfo)) (s : RunState) :
    (processPairs l s).failed_tests = s.failed_tests ++ failedOf l := by
  induction l generalizing s with
  | nil => simp [processPairs, failedOf]
  | cons p rest ih =>
      obtain ⟨o, i⟩ := p
      rw [processPairs, ih]
      cases o <;> cases hb : i.is_bench <;> simp [handle_outcome, failedOf, hb]

theorem processPairs_num_filtered_out (l : List (Outcome × TestInfo)) (s : RunState) :
    (processPairs l s).conclusion.num_filtered_out = s.conclusion.num_filtered_out := by
  induction l generalizing s with
  | nil => simp [processPairs]
  | cons p rest ih =>
      obtain ⟨o, i⟩ := p
      rw [processPairs, ih]
      cases o <;> cases hb : i.is_bench <;> simp [handle_outcome, hb]

theorem processPairs_num_passed (l : List (Outcome × TestInfo)) (s : RunState) :
    (processPairs l s).conclusion.num_passed
      = s.conclusion.num_passed + l.countP (fun p => isPassedO p.1) := by
  induction l generalizing s with
  | nil => simp [processPairs]
  | cons p rest ih =>
      obtain ⟨o, i⟩ := p
      rw [processPairs, ih]
      cases o <;> cases hb : i.is_bench <;>
        simp [handle_outcome, hb, List.countP_cons, isPassedO] <;> omega

theorem processPairs_num_failed (l : List (Outcome × TestInfo)) (s : RunState) :
    (processPairs l s).conclusion.num_failed
      = s.conclusion.num_failed + l.countP (fun p => isFailedO p.1) := by
  induction l generalizing s with
  | nil => simp [processPairs]
  | cons p rest ih =>
      obtain ⟨o, i⟩ := p
      rw [processPairs, ih]
      cases o <;> cases hb : i.is_bench <;>
        simp [handle_outcome, hb, List.countP_cons, isFailedO] <;> omega

theorem processPairs_num_ignored (l : List (Outcome × TestInfo)) (s : RunState) :
    (processPairs l s).conclusion.num_ignored
      = s.conclusion.num_ignored + l.countP (fun p => isIgnoredO p.1) := by
  induction l generalizing s with
  | nil => simp [processPairs]
  | cons p rest ih =>
      obtain ⟨o, i⟩ := p
      rw [processPairs, ih]
      cases o <;> cases hb : i.is_bench <;>
        simp [handle_outcome, hb, List.countP_cons, isIgnoredO] <;> omega

theorem processPairs_num_benches (l : List (Outcome × TestInfo)) (s : RunState) :
    (processPairs l s).conclusion.num_benches
      = s.conclusion.num_benches + l.countP (fun p => p.2.is_bench) := by
  induction l generalizing s with
  | nil => simp [processPairs]
  | cons p rest ih =>
      obtain ⟨o, i⟩ := p
      rw [processPairs, ih]
      cases o <;> cases hb : i.is_bench <;>
        simp [handle_outcome, hb, List.countP_cons] <;> omega

/-- The sequential branch handles exactly the pairs the concurrent branch
would dispatch, in input order. -/
theorem runSeq_eq_processPairs (args : Arguments) (l : List Test) (s : RunState) :
    runSeq args l s = processPairs (outcomePairs args l) s := by
  induction l generalizing s with
  | nil => simp [runSeq, outcomePairs, processPairs]
  | cons t rest ih => simp [runSeq, outcomePairs, processPairs, ih, outcomeOf]

/-- The pairs actually handled by `run` outside list mode: the dispatched
pairs in input order in sequential mode, the arrival order otherwise. -/
def effPairs (args : Arguments) (tests : List Test)
    (arrival : List (Outcome × TestInfo)) : List (Outcome × TestInfo) :=
  if args.num_threads = some 1 then outcomePairs args (keptTests args tests) else arrival

/-- The state `run` threads into the execution loop: the filtered-out
counter, no failures yet, and the title line. -/
def initState (args : Arguments) (tests : List Test) : RunState where
  conclusion :=
    if args.filter_string.isSome || !args.skip.isEmpty then
      { Conclusion.empty with
          num_filtered_out := tests.length - (keptTests args tests).length }
    else Conclusion.empty
  failed_tests := []
  events := [PrintEvent.title (keptTests args tests).length]

/-- Unfolding of `run` outside list mode: filtering and title, then the
per-unit loop over `effPairs`, then the failure block and the summary. -/
theorem run_eq_of_not_list (args : Arguments) (tests : List Test)
    (arrival : List (Outcome × TestInfo)) (hlist : args.list = false) :
    run args tests arrival =
      { conclusion := (processPairs (effPairs args tests arrival) (initState args tests)).conclusion
        failed_tests :=
          (processPairs (effPairs args tests arrival) (initState args tests)).failed_tests
        events :=
          (if (processPairs (effPairs args tests arrival) (initState args tests)).failed_tests
              = [] then
            (processPairs (effPairs args tests arrival) (initState args tests)).events
           else
            (processPairs (effPairs args tests arrival) (initState args tests)).events
              ++ [PrintEvent.failures
                    (processPairs (effPairs args tests arrival)
                      (initState args tests)).failed_tests])
            ++ [PrintEvent.summary
                  (processPairs (effPairs args tests arrival) (initState args tests)).conclusion] }
    := by
  by_cases hseq : args.num_threads = some 1 <;>
    by_cases hfail :
      (processPairs (effPairs args tests arrival) (initState args tests)).failed_tests = [] <;>
    simp_all [run, effPairs, initState, runSeq_eq_processPairs, List.isEmpty_iff]

theorem countP_add_countP_not {α : Type} (p : α → Bool) (l : List α) :
    l.countP p + l.countP (fun a => !p a) = l.length := by
  induction l with
  | nil => simp
  | cons a t ih => cases h : p a <;> simp [List.countP_cons, h] <;> omega

/-- A unit is filtered out by neither branch when no filter string and no
skip patterns are configured. -/
theorem is_filtered_out_of_no_filter (args : Arguments) (t : Test)
    (hf : args.filter_string = none) (hs : args.skip = []) :
    args.is_filtered_out t = false := by
  simp [Arguments.is_filtered_out, hf, hs]

theorem length_sub_keptTests (args : Arguments) (tests : List Test) :
    tests.length - (keptTests args tests).length
      = tests.countP (fun t => args.is_filtered_out t) := by
  by_cases h : args.filter_string.isSome || !args.skip.isEmpty
  · have hlen : (keptTests args tests).length
        = tests.countP (fun t => !args.is_filtered_out t) := by
      simp [keptTests, h, List.countP_eq_length_filter]
    have hsplit := countP_add_countP_not (fun t => args.is_filtered_out t) tests
    omega
  · have hf : args.filter_string = none := by
      cases hfs : args.filter_string <;> simp_all
    have hs : args.skip = [] := by
      cases hsk : args.skip <;> simp_all
    have : tests.countP (fun t => args.is_filtered_out t) = 0 := by
      rw [List.countP_eq_zero]
      intro t _
      simp [is_filtered_out_of_no_filter args t hf hs]
    simp [keptTests, h, this]

theorem mem_keptTests (args : Arguments) (tests : List Test) (t : Test)
    (h : t ∈ keptTests args tests) :
    t ∈ tests ∧ args.is_filtered_out t = false := by
  by_cases hcond : args.filter_string.isSome || !args.skip.isEmpty
  · rw [keptTests, if_pos hcond] at h
    have := List.mem_filter.mp h
    simpa using this
  · rw [keptTests, if_neg hcond] at h
    have hf : args.filter_string = none := by
      cases hfs : args.filter_string <;> simp_all
    have hs : args.skip = [] := by
      cases hsk : args.skip <;> simp_all
    exact ⟨h, is_filtered_out_of_no_filter args t hf hs⟩

theorem testLine_mem_pairEvents {i : TestInfo} {l : List (Outcome × TestInfo)}
    (h : PrintEvent.testLine i ∈ pairEvents l) : ∃ o, (o, i) ∈ l := by
  induction l with
  | nil => simp [pairEvents] at h
  | cons p rest ih =>
      obtain ⟨o', i'⟩ := p
      rw [pairEvents] at h
      rcases List.mem_cons.mp h with h1 | h2
      · exact ⟨o', by simp_all⟩
      · rcases List.mem_cons.mp h2 with h3 | h4
        · simp at h3
        · obtain ⟨o, ho⟩ := ih h4
          exact ⟨o, List.mem_cons_of_mem _ ho⟩

theorem countP_outcomePairs_fst (args : Arguments) (l : List Test) (q : Outcome → Bool) :
    (outcomePairs args l).countP (fun p => q p.1)
      = l.countP (fun t => q (outcomeOf args t)) := by
  simp [outcomePairs, List.countP_map]
  rfl

theorem countP_outcomePairs_bench (args : Arguments) (l : List Test) :
    (outcomePairs args l).countP (fun p => p.2.is_bench)
      = l.countP (fun t => t.info.is_bench) := by
  simp [outcomePairs, List.countP_map]
  rfl

/-- The five counters `run` returns outside list mode, in closed form. -/
theorem run_counters (args : Arguments) (tests : List Test)
    (arrival : List (Outcome × TestInfo)) (hlist : args.list = false) :
    (run args tests arrival).conclusion =
      { num_filtered_out := tests.countP (fun t => args.is_filtered_out t)
        num_passed := (effPairs args tests arrival).countP (fun p => isPassedO p.1)
        num_failed := (effPairs args tests arrival).countP (fun p => isFailedO p.1)
        num_ignored := (effPairs args tests arrival).countP (fun p => isIgnoredO p.1)
        num_benches := (effPairs args tests arrival).countP (fun p => p.2.is_bench) } := by
  rw [run_eq_of_not_list args tests arrival hlist]
  ext
  · show (processPairs _ _).conclusion.num_filtered_out = _
    rw [processPairs_num_filtered_out]
    show (initState args tests).conclusion.num_filtered_out = _
    rw [← length_sub_keptTests args tests]
    by_cases h : args.filter_string.isSome || !args.skip.isEmpty <;>
      simp [initState, h, Conclusion.empty, keptTests]
  · show (processPairs _ _).conclusion.num_passed = _
    rw [processPairs_num_passed]
    by_cases h : args.filter_string.isSome || !args.skip.isEmpty <;>
      simp [initState, h, Conclusion.empty]
  · show (processPairs _ _).conclusion.num_failed = _
    rw [processPairs_num_failed]
    by_cases h : args.filter_string.isSome || !args.skip.isEmpty <;>
      simp [initState, h, Conclusion.empty]
  · show (processPairs _ _).conclusion.num_ignored = _
    rw [processPairs_num_ignored]
    by_cases h : args.filter_string.isSome || !args.skip.isEmpty <;>
      simp [initState, h, Conclusion.empty]
  · show (processPairs _ _).conclusion.num_benches = _
    rw [processPairs_num_benches]
    by_cases h : args.filter_string.isSome || !args.skip.isEmpty <;>
      simp [initState, h, Conclusion.empty]

/-- The printer-call trace `run` produces outside list mode. -/
theorem run_events_eq (args : Arguments) (tests : List Test)
    (arrival : List (Outcome × TestInfo)) (hlist : args.list = false) :
    (run args tests arrival).events =
      PrintEvent.title (keptTests args tests).length ::
        (pairEvents (effPairs args tests arrival)
          ++ (if failedOf (effPairs args tests arrival) = [] then []
              else [PrintEvent.failures (failedOf (effPairs args tests arrival))])
          ++ [PrintEvent.summary (run args tests arrival).conclusion]) := by
  have hfte : (initState args tests).failed_tests = [] := rfl
  have heve : (initState args tests).events
      = [PrintEvent.title (keptTests args tests).length] := rfl
  have hconc : (run args tests arrival).conclusion
      = (processPairs (effPairs args tests arrival) (initState args tests)).conclusion := by
    rw [run_eq_of_not_list args tests arrival hlist]
  conv_lhs => rw [run_eq_of_not_list args tests arrival hlist]
  rw [hconc]
  show (if _ = ([] : List (TestInfo × Option (List Char))) then _ else _) ++ _ = _
  rw [processPairs_failed_tests, processPairs_events, hfte, heve]
  by_cases hfail : failedOf (effPairs args tests arrival) = [] <;> simp [hfail]

/-- The `failed_tests` list `run` accumulates outside list mode. -/
theorem run_failed_tests_eq (args : Arguments) (tests : List Test)
    (arrival : List (Outcome × TestInfo)) (hlist : args.list = false) :
    (run args tests arrival).failed_tests = failedOf (effPairs args tests arrival) := by
  rw [run_eq_of_not_list args tests arrival hlist]
  show (processPairs _ _).failed_tests = _
  rw [processPairs_failed_tests]
  simp [initState]

theorem any_perm_eq {α : Type} (f : α → Bool) {l₁ l₂ : List α} (h : l₁.Perm l₂) :
    l₁.any f = l₂.any f := by
  cases h1 : l₁.any f <;> cases h2 : l₂.any f <;> simp_all [List.any_eq_true]
  · obtain ⟨x, hx, hfx⟩ := h2
    exact absurd hfx (by simp [h1 x (h.mem_iff.mpr hx)])
  · obtain ⟨x, hx, hfx⟩ := h1
    exact absurd hfx (by simp [h2 x (h.mem_iff.mp hx)])

/-- A sequential-mode configuration with no filtering, no skip patterns and
no special flags. -/
def seqArgs : Arguments where
  filter_string := none
  skip := []
  exact := false
  ignored := false
  test := false
  bench := false
  list := false
  num_threads := some 1

/-- A benchmark unit whose runner fails without a message. -/
def benchFail : Test :=
  Test.bench ['b'] (fun _ => Except.error { msg := none })

/-- A benchmark unit whose runner succeeds with a measurement. -/
def benchMeas : Test :=
  Test.bench ['c'] (fun _ => Except.ok { avg := 100, variance := 2 })

/-- A non-benchmark unit whose runner succeeds. -/
def testPass : Test :=
  Test.test ['a'] (fun _ => Except.ok ())

/-- A non-benchmark unit whose runner fails without a message. -/
def testFail : Test :=
  Test.test ['d'] (fun _ => Except.error { msg := none })

/-- C3: `is_ignored` holds exactly when the unit's ignored flag is set and
the run-ignored flag is not, or the unit is a benchmark and the tests-only
flag is set, or the unit is not a benchmark and the benchmarks-only flag is
set. -/
theorem is_ignored_characterization (args : Arguments) (t : Test) :
    args.is_ignored t = true ↔
      (t.info.is_ignored = true ∧ args.ignored = false)
      ∨ (t.info.is_bench = true ∧ args.test = true)
      ∨ (t.info.is_bench = false ∧ args.bench = true) := by
  simp [Arguments.is_ignored, or_assoc]

/-- C4: a unit is filtered out exactly when a configured filter string
fails to match its name (containment in substring mode, equality in exact
mode) or some skip pattern matches it; with no filter string and no skip
patterns nothing is filtered out, and the decision is invariant under
permuting the skip patterns. -/
theorem is_filtered_out_characterization (args : Arguments) (t : Test) :
    (args.is_filtered_out t = true ↔
      (∃ f, args.filter_string = some f ∧
          (if args.exact = true then t.info.name ≠ f
           else strContains t.info.name f = false))
      ∨ (∃ p, p ∈ args.skip ∧
          (if args.exact = true then t.info.name = p
           else strContains t.info.name p = true)))
    ∧ (args.filter_string = none → args.skip = [] → args.is_filtered_out t = false)
    ∧ (∀ skip2 : List (List Char), skip2.Perm args.skip →
        Arguments.is_filtered_out { args with skip := skip2 } t
          = args.is_filtered_out t) := by
  refine ⟨?_, fun hf hs => is_filtered_out_of_no_filter args t hf hs, ?_⟩
  · cases hf : args.filter_string <;> cases he : args.exact <;>
      simp [Arguments.is_filtered_out, hf, he, List.any_eq_true]
  · intro skip2 hperm
    simp only [Arguments.is_filtered_out]
    rw [any_perm_eq _ hperm]

/-- Witness for C4: with no filter string and no skip patterns, `testPass`
is not filtered out. -/
theorem is_filtered_out_characterization_witness :
    seqArgs.is_filtered_out testPass = false :=
  (is_filtered_out_characterization seqArgs testPass).2.1 rfl rfl

/-- The handled pairs of `run` are a permutation of the dispatched pairs,
in sequential mode (where they coincide) and whenever the arrival order is
one. -/
theorem effPairs_perm (args : Arguments) (tests : List Test)
    (arrival : List (Outcome × TestInfo))
    (hmode : args.num_threads = some 1
             ∨ arrival.Perm (outcomePairs args (keptTests args tests))) :
    (effPairs args tests arrival).Perm (outcomePairs args (keptTests args tests)) := by
  unfold effPairs
  by_cases hseq : args.num_threads = some 1
  · rw [if_pos hseq]
  · rw [if_neg hseq]
    rcases hmode with h | h
    · exact absurd h hseq
    · exact h

theorem pairEvents_outcomePairs (args : Arguments) (l : List Test) :
    pairEvents (outcomePairs args l)
      = l.flatMap (fun t =>
          [PrintEvent.testLine t.info, PrintEvent.singleOutcome (outcomeOf args t)]) := by
  induction l with
  | nil => simp [outcomePairs, pairEvents]
  | cons t rest ih => simp [outcomePairs, pairEvents] at ih ⊢; simpa using ih

theorem countP_outcomes_split (l : List (Outcome × TestInfo)) :
    l.countP (fun p => isPassedO p.1) + l.countP (fun p => isFailedO p.1)
      + l.countP (fun p => isIgnoredO p.1) + l.countP (fun p => isMeasuredO p.1)
      = l.length := by
  induction l with
  | nil => simp
  | cons p rest ih =>
      obtain ⟨o, i⟩ := p
      have h1 : (if isPassedO o = true then 1 else 0)
          + (if isFailedO o = true then 1 else 0)
          + (if isIgnoredO o = true then 1 else 0)
          + (if isMeasuredO o = true then 1 else 0) = 1 := by
        cases o <;> rfl
      simp only [List.countP_cons, List.length_cons]
      omega

/-- C5: with exactly one requested worker, `run` handles the surviving
units strictly in input order: an ignored-for-run unit's recorded outcome
is `Ignored` without consulting its runner, any other unit's recorded
outcome is its runner's result, and the printed stream is the title
followed, unit by unit in input order, by each unit's name line
immediately followed by its outcome, then the failure block and summary. -/
theorem run_sequential_order (args : Arguments) (tests : List Test)
    (arrival : List (Outcome × TestInfo))
    (hseq : args.num_threads = some 1) (hlist : args.list = false) :
    (∀ t : Test, args.is_ignored t = true → outcomeOf args t = Outcome.Ignored)
    ∧ (∀ t : Test, args.is_ignored t = false → outcomeOf args t = t.runner ())
    ∧ pairEvents (outcomePairs args (keptTests args tests))
        = (keptTests args tests).flatMap (fun t =>
            [PrintEvent.testLine t.info, PrintEvent.singleOutcome (outcomeOf args t)])
    ∧ (run args tests arrival).events =
        PrintEvent.title (keptTests args tests).length ::
          (pairEvents (outcomePairs args (keptTests args tests))
            ++ (if failedOf (outcomePairs args (keptTests args tests)) = [] then []
                else [PrintEvent.failures
                        (failedOf (outcomePairs args (keptTests args tests)))])
            ++ [PrintEvent.summary (run args tests arrival).conclusion]) := by
  have heff : effPairs args tests arrival = outcomePairs args (keptTests args tests) := by
    unfold effPairs
    rw [if_pos hseq]
  refine ⟨?_, ?_, pairEvents_outcomePairs args _, ?_⟩
  · intro t h
    simp [outcomeOf, h]
  · intro t h
    simp [outcomeOf, h]
  · rw [run_events_eq args tests arrival hlist, heff]

/-- Witness for C5: a passing and a failing unit, one worker. -/
theorem run_sequential_order_witness :
    (run seqArgs [testPass, testFail] []).events =
      PrintEvent.title (keptTests seqArgs [testPass, testFail]).length ::
        (pairEvents (outcomePairs seqArgs (keptTests seqArgs [testPass, testFail]))
          ++ (if failedOf (outcomePairs seqArgs (keptTests seqArgs [testPass, testFail]))
                = [] then []
              else [PrintEvent.failures
                      (failedOf (outcomePairs seqArgs (keptTests seqArgs [testPass, testFail])))])
          ++ [PrintEvent.summary (run seqArgs [testPass, testFail] []).conclusion]) :=
  (run_sequential_order seqArgs [testPass, testFail] [] rfl rfl).2.2.2

/-- C6: a filtered-out unit is removed before execution — it never gets a
name line in the printed stream — and the filtered-out counter equals the
number of units the filter rejects. -/
theorem run_filtering_effect (args : Arguments) (tests : List Test)
    (arrival : List (Outcome × TestInfo)) (hlist : args.list = false)
    (hmode : args.num_threads = some 1
             ∨ arrival.Perm (outcomePairs args (keptTests args tests))) :
    (run args tests arrival).conclusion.num_filtered_out
        = tests.countP (fun t => args.is_filtered_out t)
    ∧ (∀ info : TestInfo, PrintEvent.testLine info ∈ (run args tests arrival).events →
        ∃ t, t ∈ tests ∧ args.is_filtered_out t = false ∧ t.info = info) := by
  have hperm := effPairs_perm args tests arrival hmode
  constructor
  · rw [run_counters args tests arrival hlist]
  · intro info hmem
    rw [run_events_eq args tests arrival hlist] at hmem
    have hB : PrintEvent.testLine info ∉
        (if failedOf (effPairs args tests arrival) = [] then []
         else [PrintEvent.failures (failedOf (effPairs args tests arrival))]) := by
      split <;> simp
    simp only [List.mem_cons, List.mem_append, List.mem_singleton] at hmem
    rcases hmem with h | (h | h) | h
    · exact absurd h (by simp)
    · obtain ⟨o, ho⟩ := testLine_mem_pairEvents h
      have hmem2 : (o, info) ∈ outcomePairs args (keptTests args tests) :=
        hperm.mem_iff.mp ho
      rw [outcomePairs] at hmem2
      obtain ⟨t, htk, hti⟩ := List.mem_map.mp hmem2
      obtain ⟨htests, hnf⟩ := mem_keptTests args tests t htk
      exact ⟨t, htests, hnf, congrArg Prod.snd hti⟩
    · exact absurd h hB
    · exact absurd h (by simp)

/-- Witness for C6: the skip pattern `d` removes `testFail` and the
filtered-out counter reports it. -/
theorem run_filtering_effect_witness :
    (run { seqArgs with skip := [['d']] } [testPass, testFail] []).conclusion.num_filtered_out
      = List.countP (fun t => Arguments.is_filtered_out { seqArgs with skip := [['d']] } t)
          [testPass, testFail] :=
  (run_filtering_effect { seqArgs with skip := [['d']] } [testPass, testFail] []
    rfl (Or.inl rfl)).1

/-- C7: in list mode `run` executes nothing and aggregates nothing: it
prints only the listing and returns the all-zero conclusion, even when
filtering removed units. -/
theorem run_list_mode (args : Arguments) (tests : List Test)
    (arrival : List (Outcome × TestInfo)) (hlist : args.list = true) :
    (run args tests arrival).conclusion = Conclusion.empty
    ∧ (run args tests arrival).events
        = [PrintEvent.listing ((keptTests args tests).map Test.info) args.ignored]
    ∧ (run args tests arrival).failed_tests = [] := by
  refine ⟨?_, ?_, ?_⟩ <;> simp [run, hlist]

/-- Witness for C7: list mode with a skip pattern that removes a unit
still returns the all-zero conclusion. -/
theorem run_list_mode_witness :
    (run { seqArgs with list := true, skip := [['d']] } [testPass, testFail] []).conclusion
      = Conclusion.empty :=
  (run_list_mode { seqArgs with list := true, skip := [['d']] } [testPass, testFail] []
    rfl).1

/-- C8: the conclusion is a function of the configuration and the units
alone — two runs over the same deterministic units, with any delivery
orders of the dispatched outcomes (hence in sequential and concurrent mode
alike), yield identical counters. -/
theorem run_deterministic (args : Arguments) (tests : List Test)
    (a1 a2 : List (Outcome × TestInfo))
    (h1 : a1.Perm (outcomePairs args (keptTests args tests)))
    (h2 : a2.Perm (outcomePairs args (keptTests args tests))) :
    (run args tests a1).conclusion = (run args tests a2).conclusion := by
  by_cases hlist : args.list = true
  · simp [run, hlist]
  · have hl : args.list = false := by
      cases hv : args.list
      · rfl
      · exact absurd hv hlist
    rw [run_counters args tests a1 hl, run_counters args tests a2 hl]
    have hp : (effPairs args tests a1).Perm (effPairs args tests a2) :=
      (effPairs_perm args tests a1 (Or.inr h1)).trans
        (effPairs_perm args tests a2 (Or.inr h2)).symm
    simp only [Conclusion.mk.injEq]
    exact ⟨trivial, hp.countP_eq _, hp.countP_eq _, hp.countP_eq _, hp.countP_eq _⟩

/-- Witness for C8: a two-unit concurrent run where the outcomes arrive in
dispatch order and in reversed order produces the same counters. -/
theorem run_deterministic_witness :
    (run { seqArgs with num_threads := none } [testPass, testFail]
        [(Outcome.Passed, testPass.info), (Outcome.Failed { msg := none }, testFail.info)]
      ).conclusion
    = (run { seqArgs with num_threads := none } [testPass, testFail]
        [(Outcome.Failed { msg := none }, testFail.info), (Outcome.Passed, testPass.info)]
      ).conclusion :=
  run_deterministic { seqArgs with num_threads := none } [testPass, testFail]
    [(Outcome.Passed, testPass.info), (Outcome.Failed { msg := none }, testFail.info)]
    [(Outcome.Failed { msg := none }, testFail.info), (Outcome.Passed, testPass.info)]
    (by decide) (by decide)

/-- C9: a unit built by `Test::test` is a non-benchmark whose runner can
only yield `Passed` or `Failed` and never `Measured`; `Measured` arises
only from `Test::bench` units, whose runner yields `Measured` or
`Failed`. -/
theorem test_constructor_outcomes (name1 name2 : List Char)
    (r : Unit → Except Failed Unit) (rb : Unit → Except Failed Measurement) :
    (Test.test name1 r).info.is_bench = false
    ∧ ((Test.test name1 r).runner () = Outcome.Passed
       ∨ ∃ f, (Test.test name1 r).runner () = Outcome.Failed f)
    ∧ (∀ m, (Test.test name1 r).runner () ≠ Outcome.Measured m)
    ∧ (Test.bench name2 rb).info.is_bench = true
    ∧ ((∃ m, (Test.bench name2 rb).runner () = Outcome.Measured m)
       ∨ ∃ f, (Test.bench name2 rb).runner () = Outcome.Failed f) := by
  refine ⟨rfl, ?_, ?_, rfl, ?_⟩
  · cases h : r () with
    | ok v => exact Or.inl (by simp [Test.test, h])
    | error f => exact Or.inr ⟨f, by simp [Test.test, h]⟩
  · intro m hcontra
    cases h : r () <;> simp [Test.test, h] at hcontra
  · cases h : rb () with
    | ok m => exact Or.inl ⟨m, by simp [Test.bench, h]⟩
    | error f => exact Or.inr ⟨f, by simp [Test.bench, h]⟩

/-- C10: outside list mode, `num_benches` counts every benchmark that
survived filtering exactly once, whatever its outcome. -/
theorem run_num_benches_counts_all_benches (args : Arguments) (tests : List Test)
    (arrival : List (Outcome × TestInfo)) (hlist : args.list = false)
    (hmode : args.num_threads = some 1
             ∨ arrival.Perm (outcomePairs args (keptTests args tests))) :
    (run args tests arrival).conclusion.num_benches
      = (keptTests args tests).countP (fun t => t.info.is_bench) := by
  have hperm := effPairs_perm args tests arrival hmode
  rw [run_counters args tests arrival hlist]
  show (effPairs args tests arrival).countP (fun p => p.2.is_bench) = _
  rw [hperm.countP_eq, countP_outcomePairs_bench]

/-- Witness for C10: a failing benchmark and an ignored benchmark both
count, so `num_benches` is 2. -/
theorem run_num_benches_counts_all_benches_witness :
    (run seqArgs [benchFail, benchMeas.with_ignored_flag true] []).conclusion.num_benches
      = List.countP (fun t => t.info.is_bench)
          (keptTests seqArgs [benchFail, benchMeas.with_ignored_flag true]) :=
  run_num_benches_counts_all_benches seqArgs [benchFail, benchMeas.with_ignored_flag true] []
    rfl (Or.inl rfl)

/-- C1 is false on the code: a benchmark whose recorded outcome is
`Failed` still increments `num_benches` (1, not the claimed 0), an
ignored benchmark does too, and a benchmark whose outcome is `Measured`
is not counted under `num_passed` (0, not the claimed 1). -/
theorem bench_counter_claim_false :
    outcomeOf seqArgs benchFail = Outcome.Failed { msg := none }
    ∧ (run seqArgs [benchFail] []).conclusion.num_benches = 1
    ∧ outcomeOf { seqArgs with ignored := false } (benchFail.with_ignored_flag true)
        = Outcome.Ignored
    ∧ (run seqArgs [benchFail.with_ignored_flag true] []).conclusion.num_benches = 1
    ∧ outcomeOf seqArgs benchMeas = Outcome.Measured { avg := 100, variance := 2 }
    ∧ (run seqArgs [benchMeas] []).conclusion.num_passed = 0 := by
  decide

/-- C1 amended: `num_benches` is incremented for every handled benchmark
regardless of its recorded outcome, and `num_passed` counts exactly the
units whose recorded outcome is `Passed` — a `Measured` outcome increments
`num_benches` only. -/
theorem bench_counter_amended (args : Arguments) (tests : List Test)
    (arrival : List (Outcome × TestInfo)) (hlist : args.list = false)
    (hmode : args.num_threads = some 1
             ∨ arrival.Perm (outcomePairs args (keptTests args tests))) :
    (run args tests arrival).conclusion.num_benches
        = (keptTests args tests).countP (fun t => t.info.is_bench)
    ∧ (run args tests arrival).conclusion.num_passed
        = (keptTests args tests).countP (fun t => isPassedO (outcomeOf args t)) := by
  have hperm := effPairs_perm args tests arrival hmode
  rw [run_counters args tests arrival hlist]
  constructor
  · show (effPairs args tests arrival).countP (fun p => p.2.is_bench) = _
    rw [hperm.countP_eq, countP_outcomePairs_bench]
  · show (effPairs args tests arrival).countP (fun p => isPassedO p.1) = _
    rw [hperm.countP_eq, countP_outcomePairs_fst]

/-- Witness for the amended C1: one failing benchmark, one measured
benchmark — `num_benches` is 2 while `num_passed` is 0. -/
theorem bench_counter_amended_witness :
    (run seqArgs [benchFail, benchMeas] []).conclusion.num_benches
        = List.countP (fun t => t.info.is_bench) (keptTests seqArgs [benchFail, benchMeas])
    ∧ (run seqArgs [benchFail, benchMeas] []).conclusion.num_passed
        = List.countP (fun t => isPassedO (outcomeOf seqArgs t))
            (keptTests seqArgs [benchFail, benchMeas]) :=
  bench_counter_amended seqArgs [benchFail, benchMeas] [] rfl (Or.inl rfl)

/-- C2 is false on the code: with one failed and one measured benchmark
(2 surviving units), the conclusion is `{0, 0, 1, 0, 2}` — the pass/fail/
ignored counters sum to 1, and adding the benchmark counter gives 3, so
neither reading of the claimed sum equals 2. -/
theorem outcome_sum_claim_false :
    (run seqArgs [benchFail, benchMeas] []).conclusion
        = { num_filtered_out := 0, num_passed := 0, num_failed := 1,
            num_ignored := 0, num_benches := 2 }
    ∧ (keptTests seqArgs [benchFail, benchMeas]).length = 2
    ∧ (0 + 1 + 0 ≠ 2 ∧ 0 + 1 + 0 + 2 ≠ 2) := by
  decide

/-- C2 amended: every surviving unit gets exactly one recorded outcome,
and `num_passed + num_failed + num_ignored` plus the number of `Measured`
outcomes equals the number of surviving units; a `Measured` outcome
increments no outcome counter, only `num_benches`. -/
theorem outcome_partition_amended (args : Arguments) (tests : List Test)
    (arrival : List (Outcome × TestInfo)) (hlist : args.list = false)
    (hmode : args.num_threads = some 1
             ∨ arrival.Perm (outcomePairs args (keptTests args tests))) :
    (∀ p, p ∈ outcomePairs args (keptTests args tests) →
        (isPassedO p.1).toNat + (isFailedO p.1).toNat
          + (isIgnoredO p.1).toNat + (isMeasuredO p.1).toNat = 1)
    ∧ (outcomePairs args (keptTests args tests)).length = (keptTests args tests).length
    ∧ (run args tests arrival).conclusion.num_passed
        + (run args tests arrival).conclusion.num_failed
        + (run args tests arrival).conclusion.num_ignored
        + (outcomePairs args (keptTests args tests)).countP (fun p => isMeasuredO p.1)
      = (keptTests args tests).length := by
  have hperm := effPairs_perm args tests arrival hmode
  refine ⟨?_, by simp [outcomePairs], ?_⟩
  · intro p _
    cases h : p.1 <;> simp [isPassedO, isFailedO, isIgnoredO, isMeasuredO, h]
  · rw [run_counters args tests arrival hlist]
    show (effPairs args tests arrival).countP (fun p => isPassedO p.1)
        + (effPairs args tests arrival).countP (fun p => isFailedO p.1)
        + (effPairs args tests arrival).countP (fun p => isIgnoredO p.1)
        + (outcomePairs args (keptTests args tests)).countP (fun p => isMeasuredO p.1)
      = (keptTests args tests).length
    rw [hperm.countP_eq, hperm.countP_eq, hperm.countP_eq, countP_outcomes_split]
    simp [outcomePairs]

/-- Witness for the amended C2: one passing unit, one failing benchmark
and one measured benchmark partition as 1 + 1 + 0 + 1 = 3. -/
theorem outcome_partition_amended_witness :
    (run seqArgs [testPass, benchFail, benchMeas] []).conclusion.num_passed
        + (run seqArgs [testPass, benchFail, benchMeas] []).conclusion.num_failed
        + (run seqArgs [testPass, benchFail, benchMeas] []).conclusion.num_ignored
        + (outcomePairs seqArgs
            (keptTests seqArgs [testPass, benchFail, benchMeas])).countP
              (fun p => isMeasuredO p.1)
      = (keptTests seqArgs [testPass, benchFail, benchMeas]).length :=
  (outcome_partition_amended seqArgs [testPass, benchFail, benchMeas] []
    rfl (Or.inl rfl)).2.2

end LibtestMimic
